import Mathlib

/-!
Verification of the set-builder application.

This file gives a shallow embedding, in Lean 4, of the core of the
set-builder web application (src/app.js and the extended client script
with the AI assistant, src/unnamed/part_000), and settles the claims of
the specification against it.

The embedding is translated from the JavaScript source:
* `sanitizeValue` embeds `sanitizeValue` (trim, then collapse every
  maximal whitespace run to a single space, as in
  value.trim().replace of whitespace-runs by a space);
* `Store` and `addValue` embed the module-level `setItems` Set and the
  `addValue` function (a JS `Set.add` is a no-op on duplicates, so
  `added` is true exactly when the value was absent);
* `parseBulk` embeds the `parts` pipeline inside `addMany` (split on
  newline and comma, sanitize each segment, drop empties);
* `JsValue` and `addItemsFromArray` embed the dynamically typed
  `addItemsFromArray` function;
* `render` and `setLiteral` embed the `render` function, with the
  locale collator of Intl.Collator abstracted as a boolean comparison
  parameter;
* `UiState`, `submitStep`, `cancelClickStep`, `settleStep` embed the AI
  request lifecycle: the `aiForm` submit handler, the `aiCancelButton`
  click handler, and the settlement (then/catch/finally) of the fetch
  started by a submit.  Events are interleaved exactly as the
  single-threaded event loop interleaves them: each handler runs
  atomically, and a fetch settles at some later event.
-/

set_option maxRecDepth 4000

/-- The JavaScript whitespace class: the characters matched by the regex
class of whitespace and by String.prototype.trim (WhiteSpace plus
LineTerminator). -/
def isJsWs (c : Char) : Bool :=
  c == ' ' || c == '\t' || c == '\n' || c == '\r' ||
  c.toNat == 0x0B || c.toNat == 0x0C || c.toNat == 0xA0 ||
  c.toNat == 0x1680 || (0x2000 ≤ c.toNat && c.toNat ≤ 0x200A) ||
  c.toNat == 0x2028 || c.toNat == 0x2029 || c.toNat == 0x202F ||
  c.toNat == 0x205F || c.toNat == 0x3000 || c.toNat == 0xFEFF

/-- String.prototype.trim on the character list: drop leading and
trailing JavaScript whitespace. -/
def trimList (l : List Char) : List Char :=
  (((l.dropWhile isJsWs).reverse).dropWhile isJsWs).reverse

/-- The replacement of every maximal whitespace run by a single space,
as performed by the replace call in `sanitizeValue`.  The flag records
whether the previous character belonged to a whitespace run that has
already emitted its space. -/
def collapseAux : Bool → List Char → List Char
  | _, [] => []
  | prevWs, c :: rest =>
    if isJsWs c then
      if prevWs then collapseAux true rest
      else ' ' :: collapseAux true rest
    else c :: collapseAux false rest

/-- `sanitizeValue` from src/app.js lines 14-16 (identical copy at
src/unnamed/part_000 lines 20-22), on character lists:
value.trim() followed by replacing each whitespace run with a space. -/
def sanitizeList (l : List Char) : List Char :=
  collapseAux false (trimList l)

/-- `sanitizeValue` on strings. -/
def sanitizeValue (value : String) : String :=
  String.mk (sanitizeList value.toList)

/-- String.prototype.trim on strings (used by the AI success path, which
trims without collapsing internal whitespace). -/
def jsTrim (s : String) : String :=
  String.mk (trimList s.toList)

/-- The module-level `setItems` JavaScript Set: a JS Set enumerates in
insertion order and ignores duplicate insertions, so it is embedded as
the list of its members in insertion order, with `addValue` inserting
only absent values. -/
structure Store where
  items : List String
deriving DecidableEq

/-- `setItems.size`. -/
def Store.size (st : Store) : Nat := st.items.length

/-- `addValue` from src/app.js lines 18-31: sanitize; an empty result is
rejected; otherwise `setItems.add` inserts the value if absent, and
`added` compares the size before and after, so it is true exactly when
the sanitized value was absent. -/
def addValue (st : Store) (value : String) : Bool × Store :=
  if sanitizeValue value = "" then (false, st)
  else if sanitizeValue value ∈ st.items then (false, st)
  else (true, Store.mk (st.items ++ [sanitizeValue value]))

/-- The newline-or-comma split of the regex used in `addMany`:
standard split semantics, so adjacent delimiters produce empty
segments. -/
def splitDelims : List Char → List (List Char)
  | [] => [[]]
  | c :: rest =>
    if c == '\n' || c == ',' then [] :: splitDelims rest
    else
      match splitDelims rest with
      | [] => [[c]]
      | seg :: segs => (c :: seg) :: segs

/-- The `parts` pipeline of `addMany`, src/app.js lines 33-37 (the spec
names it parseBulk): split the raw input on every newline and comma,
sanitize each segment, and drop segments that sanitize to empty. -/
def parseBulk (raw : String) : List String :=
  ((splitDelims raw.toList).map (fun seg => sanitizeValue (String.mk seg))).filter
    (fun s => ¬ s = "")

/-- The JavaScript values that can appear in a suggestion payload. -/
inductive JsValue where
  | str (s : String)
  | num (n : Int)
  | nullV
  | boolV (b : Bool)
  | arr (elems : List JsValue)

/-- Array.isArray. -/
def isArr : JsValue → Bool
  | JsValue.arr _ => true
  | _ => false

/-- The test of the JavaScript expression typeof item === "string". -/
def isStr : JsValue → Bool
  | JsValue.str _ => true
  | _ => false

/-- Extraction of the string payload of a value, for the filter on
typeof item === "string". -/
def getStr : JsValue → Option String
  | JsValue.str s => some s
  | _ => none

/-- The loop body of `addItemsFromArray`: non-string elements are
skipped with continue, strings go through `addValue`, and `addedAny`
records whether any add returned true. -/
def addItemsLoop : List JsValue → Store → Bool × Store
  | [], st => (false, st)
  | JsValue.str s :: rest, st =>
    ((addValue st s).1 || (addItemsLoop rest (addValue st s).2).1,
      (addItemsLoop rest (addValue st s).2).2)
  | _ :: rest, st => addItemsLoop rest st

/-- `addItemsFromArray` from src/unnamed/part_000 lines 58-74: a
non-array argument returns false with no mutation; otherwise each
element is processed by the loop above. -/
def addItemsFromArray (items : JsValue) (st : Store) : Bool × Store :=
  match items with
  | JsValue.arr l => addItemsLoop l st
  | _ => (false, st)

/-- The two outputs of `render`, src/app.js lines 69-93: the chip list
(the visual entries, in display order), the hidden flag of the
empty-state indicator, and the text content of the set-literal output
element. -/
structure RenderOut where
  chips : List String
  emptyStateHidden : Bool
  outputText : String
deriving DecidableEq

/-- The set-literal template of src/app.js lines 89-92: brace-delimited,
comma-and-space-separated, each value double-quoted with no escaping,
in the store's enumeration order. -/
def setLiteral (vs : List String) : String :=
  "\x7b " ++ String.intercalate (", ") (vs.map (fun v => "\"" ++ v ++ "\"")) ++ " \x7d"

/-- `render` from src/app.js lines 69-93: an empty store shows the
empty-state indicator, clears the chip list and the literal; otherwise
the chips are the values sorted by the collator comparison (the
locale-aware Intl.Collator order is abstracted as the boolean
comparison `le`), and the literal is built from the unsorted
enumeration order. -/
def render (le : String → String → Bool) (st : Store) : RenderOut :=
  if st.size = 0 then RenderOut.mk [] false ""
  else RenderOut.mk (st.items.mergeSort le) true (setLiteral st.items)

/-- A concrete stand-in collator comparison (by length), used to
instantiate the render contract. -/
def lenLe (a b : String) : Bool := decide (a.length ≤ b.length)

/-- Case-insensitive substring containment on character lists: the test
performed by the case-insensitive regex over Failed to fetch. -/
def containsCI (needle hay : List Char) : Bool :=
  hay.tails.any (fun t => (needle.map Char.toLower).isPrefixOf (t.map Char.toLower))

/-- The test of the case-insensitive regex over the text Failed to
fetch, applied to an error message. -/
def failedToFetchTest (msg : String) : Bool :=
  containsCI (String.toList ("Failed to fetch")) msg.toList

/-- The state touched by the AI-assistant handlers of
src/unnamed/part_000: the store, the shared `aiRequestController`
handle (identified by a request number), the set of controllers whose
abort method has been called, the requests dispatched and not yet
settled, the disabled and hidden flags written by `setAiLoading`, the
status element written by `updateAiStatus` (message and data-state
severity), the log of `announce` messages, and a counter providing
fresh request numbers. -/
structure UiState where
  store : Store
  controller : Option Nat
  abortedIds : List Nat
  pending : List Nat
  promptDisabled : Bool
  submitDisabled : Bool
  cancelHidden : Bool
  cancelDisabled : Bool
  status : Option (String × String)
  announcements : List String
  nextId : Nat
deriving DecidableEq

/-- The initial page state: empty store, no controller, controls
enabled, cancel control hidden, no status. -/
def initState : UiState :=
  UiState.mk (Store.mk []) none [] [] false false true true none [] 0

/-- `announce` from src/unnamed/part_000 lines 119-127: an empty
message is ignored, otherwise an aria-live region with the message is
appended. -/
def announceSt (s : UiState) (message : String) : UiState :=
  if message = "" then s
  else { s with announcements := s.announcements ++ [message] }

/-- `setAiLoading` from src/unnamed/part_000 lines 166-178: disables
the submit control and the prompt while loading, and shows and enables
the cancel control exactly while loading. -/
def setAiLoading (s : UiState) (isLoading : Bool) : UiState :=
  { s with submitDisabled := isLoading, promptDisabled := isLoading,
           cancelHidden := !isLoading, cancelDisabled := !isLoading }

/-- `updateAiStatus` from src/unnamed/part_000 lines 180-193: an empty
message clears the status element, otherwise the message and its
data-state severity are shown. -/
def updateAiStatus (s : UiState) (message state : String) : UiState :=
  if message = "" then { s with status := none }
  else { s with status := some (message, state) }

/-- The `aiCancelButton` click handler, src/unnamed/part_000 lines
195-199: abort the controller currently held by the shared handle, if
any. -/
def cancelClickStep (s : UiState) : UiState :=
  match s.controller with
  | some i => { s with abortedIds := s.abortedIds ++ [i] }
  | none => s

/-- The `aiForm` submit handler up to the dispatch of the fetch,
src/unnamed/part_000 lines 201-226: sanitize the prompt; reject an
empty prompt with an announcement only; otherwise abort any controller
held by the shared handle, install a fresh controller, enter the
loading UI state and show the contacting status (`updateAiStatus` is
called with its default severity, info).  The fresh request number is
recorded as dispatched. -/
def submitStep (s : UiState) (fieldValue : String) : UiState :=
  if sanitizeValue fieldValue = "" then
    announceSt s ("Describe what you need before asking the assistant.")
  else
    let s1 :=
      match s.controller with
      | some i => { s with abortedIds := s.abortedIds ++ [i] }
      | none => s
    let s2 := { s1 with controller := some s1.nextId,
                        pending := s1.pending ++ [s1.nextId],
                        nextId := s1.nextId + 1 }
    updateAiStatus (setAiLoading s2 true) ("Contacting the assistant…") ("info")

/-- The network-level result a dispatched fetch settles with, when its
controller was not aborted: a 2xx response with the items field of its
JSON body, a non-2xx response with the error field of its JSON body
when that body parsed to an object with a truthy error (none when the
body was missing, unparseable, or had no truthy error field), or a
TypeError thrown by fetch carrying a message. -/
inductive FetchOutcome where
  | ok (itemsField : Option JsValue)
  | httpError (status : Nat) (errorField : Option String)
  | fetchTypeError (msg : String)

/-- The items pipeline of the success path, src/unnamed/part_000 lines
242-247: if the items field is an array, keep its strings, trim each,
and drop empties; otherwise the empty list. -/
def extractItems (itemsField : Option JsValue) : List String :=
  match itemsField with
  | some (JsValue.arr l) => ((l.filterMap getStr).map jsTrim).filter (fun t => ¬ t = "")
  | _ => []

/-- The plural suffix of the template literals of the success path. -/
def pluralSuffix (n : Nat) : String := if n > 1 then "s" else ""

/-- The success status template of src/unnamed/part_000 line 263. -/
def addedStatusMsg (n : Nat) : String :=
  "Added " ++ toString n ++ " item" ++ pluralSuffix n ++ " from the assistant."

/-- The success announcement template of src/unnamed/part_000 line 267. -/
def addedAnnounceMsg (n : Nat) : String :=
  "Assistant added " ++ toString n ++ " item" ++ pluralSuffix n ++ " to the set."

/-- The try/catch body of the submit handler once the fetch settles,
src/unnamed/part_000 lines 228-289, for a request whose controller was
not aborted: a non-ok response throws an error whose message is the
truthy error field of the parsed body when available, else the generic
text naming the HTTP status, and the catch shows it with error
severity; a TypeError from fetch whose message matches the
case-insensitive Failed to fetch test is replaced by the
backend-unreachable text; an ok response runs the items pipeline,
deduplicates, ingests through `addItemsFromArray`, and reports the
added-count status or the all-already-present status. -/
def settleBodyResolved (s : UiState) (outcome : FetchOutcome) : UiState :=
  match outcome with
  | FetchOutcome.ok itemsField =>
    let items := extractItems itemsField
    if items = [] then
      announceSt
        (updateAiStatus s
          ("The assistant didn't return any items. Try rephrasing your request.")
          ("error"))
        ("Assistant did not return any items.")
    else
      let uniqueItems := items.eraseDups
      let result := addItemsFromArray (JsValue.arr (uniqueItems.map JsValue.str)) s.store
      if result.1 then
        announceSt
          (updateAiStatus { s with store := result.2 }
            (addedStatusMsg uniqueItems.length) ("success"))
          (addedAnnounceMsg uniqueItems.length)
      else
        announceSt
          (updateAiStatus { s with store := result.2 }
            ("All assistant suggestions were already part of your set.") ("info"))
          ("Assistant returned only existing values.")
  | FetchOutcome.httpError status errorField =>
    let errorMessage :=
      match errorField with
      | some e => if e = "" then "Request failed with status " ++ toString status else e
      | none => "Request failed with status " ++ toString status
    announceSt (updateAiStatus s errorMessage ("error")) ("Assistant request failed.")
  | FetchOutcome.fetchTypeError msg =>
    let message0 := if msg = "" then "Unable to reach the assistant." else msg
    let message :=
      if failedToFetchTest msg then
        "Could not reach the backend. Make sure the server is running and try again."
      else message0
    announceSt (updateAiStatus s message ("error")) ("Assistant request failed.")

/-- Settlement of the fetch dispatched for request `id`: if the
request's controller was aborted the promise chain rejects with
AbortError and the catch shows the cancelled status,
src/unnamed/part_000 lines 277-279; otherwise the try/catch body runs
on the network outcome.  In both cases the finally block,
src/unnamed/part_000 lines 290-293, leaves the loading UI state and
unconditionally clears the shared handle.  A request settles exactly
once, so the event is a no-op unless `id` is still dispatched. -/
def settleStep (s : UiState) (id : Nat) (outcome : FetchOutcome) : UiState :=
  if id ∈ s.pending then
    { setAiLoading
        (if id ∈ s.abortedIds then
          announceSt
            (updateAiStatus { s with pending := s.pending.erase id }
              ("Assistant request cancelled.") ("info"))
            ("Assistant request cancelled.")
        else settleBodyResolved { s with pending := s.pending.erase id } outcome)
        false
      with controller := none }
  else s

/-- The events the AI lifecycle reacts to. -/
inductive Event where
  | aiSubmit (fieldValue : String)
  | aiCancelClick
  | settle (id : Nat) (outcome : FetchOutcome)

/-- One event-loop callback. -/
def step (s : UiState) : Event → UiState
  | Event.aiSubmit fieldValue => submitStep s fieldValue
  | Event.aiCancelClick => cancelClickStep s
  | Event.settle id outcome => settleStep s id outcome

/-- A sequence of event-loop callbacks. -/
def run (s : UiState) (events : List Event) : UiState :=
  events.foldl step s

/-- The head of a character list is not whitespace (vacuously true for
the empty list). -/
def headOkB (l : List Char) : Bool :=
  match l.head? with
  | some c => !isJsWs c
  | none => true

/-- No leading and no trailing whitespace. -/
def noEdgeWs (l : List Char) : Bool := headOkB l && headOkB l.reverse

/-- No two adjacent whitespace characters, hence no whitespace run
longer than one character. -/
def noAdjWs : List Char → Bool
  | c1 :: c2 :: rest => (!(isJsWs c1 && isJsWs c2)) && noAdjWs (c2 :: rest)
  | _ => true

/-- Every whitespace character is the plain space character. -/
def allWsSpace (l : List Char) : Bool := l.all (fun c => !isJsWs c || c == ' ')


/-- An element below the head of a dropWhile result fails the
predicate. -/
theorem head_dropWhile_false {α : Type} (p : α → Bool) :
    ∀ (l : List α) (c : α), (l.dropWhile p).head? = some c → p c = false := by
  intro l
  induction l with
  | nil => intro c h; simp at h
  | cons a rest ih =>
    intro c h
    rw [List.dropWhile_cons] at h
    split at h
    · exact ih c h
    · next hp =>
      simp only [List.head?_cons, Option.some.injEq] at h
      subst h
      exact Bool.not_eq_true _ ▸ (by simpa using hp)

/-- After dropping leading whitespace the head is not whitespace. -/
theorem headOkB_dropWhile (l : List Char) : headOkB (l.dropWhile isJsWs) = true := by
  unfold headOkB
  cases h : (l.dropWhile isJsWs).head? with
  | none => rfl
  | some c => simp [head_dropWhile_false isJsWs l c h]

/-- `trimList` is an initial segment of the leading-whitespace drop. -/
theorem trimList_append (l : List Char) :
    trimList l ++ (((l.dropWhile isJsWs).reverse).takeWhile isJsWs).reverse
      = l.dropWhile isJsWs := by
  unfold trimList
  rw [← List.reverse_append, List.takeWhile_append_dropWhile, List.reverse_reverse]

/-- The head of a nonempty left part decides the head of an append. -/
theorem head_append_left {α : Type} (a b : List α) (c : α) (h : a.head? = some c) :
    (a ++ b).head? = some c := by
  cases a with
  | nil => simp at h
  | cons x rest => simpa using h

/-- A trimmed list has a non-whitespace head. -/
theorem headOkB_trimList (l : List Char) : headOkB (trimList l) = true := by
  cases h : trimList l with
  | nil => simp [headOkB, h]
  | cons a rest =>
    have hm : (l.dropWhile isJsWs).head? = some a := by
      rw [← trimList_append l]
      exact head_append_left _ _ a (by simp [h])
    have hws := head_dropWhile_false isJsWs l a hm
    simp [headOkB, h, hws]

/-- A trimmed list has a non-whitespace last character. -/
theorem headOkB_trimList_reverse (l : List Char) :
    headOkB (trimList l).reverse = true := by
  unfold trimList
  rw [List.reverse_reverse]
  exact headOkB_dropWhile _

/-- The output of the run-collapsing pass that starts inside a
whitespace run begins with a non-whitespace character. -/
theorem collapseAux_true_head :
    ∀ (l : List Char) (c : Char), (collapseAux true l).head? = some c → isJsWs c = false := by
  intro l
  induction l with
  | nil => intro c h; simp [collapseAux] at h
  | cons a rest ih =>
    intro c h
    by_cases hw : isJsWs a
    · rw [collapseAux, if_pos hw] at h
      exact ih c (by simpa using h)
    · rw [collapseAux, if_neg hw] at h
      simp only [List.head?_cons, Option.some.injEq] at h
      subst h
      simpa using hw

/-- Unfolding of `noAdjWs` on a cons cell. -/
theorem noAdjWs_cons (c : Char) (l : List Char) :
    noAdjWs (c :: l) =
      ((match l.head? with
        | some d => !(isJsWs c && isJsWs d)
        | none => true) && noAdjWs l) := by
  cases l <;> simp [noAdjWs]

/-- The run-collapsing pass never leaves two adjacent whitespace
characters. -/
theorem noAdjWs_collapseAux : ∀ (l : List Char) (b : Bool), noAdjWs (collapseAux b l) = true := by
  intro l
  induction l with
  | nil => intro b; simp [collapseAux, noAdjWs]
  | cons a rest ih =>
    intro b
    by_cases hw : isJsWs a
    · cases b with
      | true => rw [collapseAux, if_pos hw]; exact ih true
      | false =>
        rw [collapseAux, if_pos hw]
        simp only [if_neg (by simp : ¬ false = true)]
        rw [noAdjWs_cons]
        cases h : (collapseAux true rest).head? with
        | none => simp [ih true]
        | some d => simp [collapseAux_true_head rest d h, ih true]
    · rw [collapseAux, if_neg hw]
      rw [noAdjWs_cons]
      cases h : (collapseAux false rest).head? with
      | none => simp [ih false]
      | some d => simp [hw, ih false]

/-- Every whitespace character left by the run-collapsing pass is the
plain space character. -/
theorem allWsSpace_collapseAux :
    ∀ (l : List Char) (b : Bool), allWsSpace (collapseAux b l) = true := by
  intro l
  induction l with
  | nil => intro b; simp [collapseAux, allWsSpace]
  | cons a rest ih =>
    intro b
    by_cases hw : isJsWs a
    · cases b with
      | true => rw [collapseAux, if_pos hw]; exact ih true
      | false =>
        rw [collapseAux, if_pos hw]
        simp only [if_neg (by simp : ¬ false = true)]
        have := ih true
        simp_all [allWsSpace]
    · rw [collapseAux, if_neg hw]
      have := ih false
      simp_all [allWsSpace, hw]

/-- The run-collapsing pass returns a nonempty list whenever some
character is not whitespace. -/
theorem collapseAux_ne_nil :
    ∀ (l : List Char) (b : Bool), l.any (fun c => !isJsWs c) = true → collapseAux b l ≠ [] := by
  intro l
  induction l with
  | nil => intro b h; simp at h
  | cons a rest ih =>
    intro b h
    by_cases hw : isJsWs a
    · have hrest : rest.any (fun c => !isJsWs c) = true := by
        simp only [List.any_cons, hw] at h
        simpa using h
      cases b with
      | true => rw [collapseAux, if_pos hw]; exact ih true hrest
      | false =>
        rw [collapseAux, if_pos hw]
        simp
    · rw [collapseAux, if_neg hw]
      simp

/-- The last character of a cons cell with a nonempty tail is the last
character of the tail. -/
theorem getLast_cons_ne_nil {α : Type} (x : α) (t : List α) (h : t ≠ []) :
    (x :: t).getLast? = t.getLast? := by
  cases t with
  | nil => exact absurd rfl h
  | cons y r => exact List.getLast?_cons_cons

/-- The run-collapsing pass preserves a non-whitespace last
character. -/
theorem collapseAux_getLast :
    ∀ (l : List Char) (b : Bool) (c : Char), l.getLast? = some c → isJsWs c = false →
      (collapseAux b l).getLast? = some c := by
  intro l
  induction l with
  | nil => intro b c h _; simp at h
  | cons a rest ih =>
    intro b c h hc
    cases rest with
    | nil =>
      simp only [List.getLast?_singleton, Option.some.injEq] at h
      subst h
      have hw : ¬ isJsWs a = true := by simp [hc]
      rw [collapseAux, if_neg hw]
      rfl
    | cons y r =>
      have hlast : (y :: r).getLast? = some c := by
        rw [← List.getLast?_cons_cons (a := a)]; exact h
      have hmem : c ∈ y :: r := List.mem_of_getLast?_eq_some hlast
      have hany : (y :: r).any (fun d => !isJsWs d) = true := by
        rw [List.any_eq_true]
        exact ⟨c, hmem, by simp [hc]⟩
      by_cases hw : isJsWs a
      · cases b with
        | true =>
          rw [collapseAux, if_pos hw]
          exact ih true c hlast hc
        | false =>
          rw [collapseAux, if_pos hw]
          simp only [if_neg (by simp : ¬ false = true)]
          rw [getLast_cons_ne_nil _ _ (collapseAux_ne_nil _ true hany)]
          exact ih true c hlast hc
      · rw [collapseAux, if_neg hw]
        rw [getLast_cons_ne_nil _ _ (collapseAux_ne_nil _ false hany)]
        exact ih false c hlast hc

/-- The sanitized list has a non-whitespace head. -/
theorem headOkB_sanitizeList (l : List Char) : headOkB (sanitizeList l) = true := by
  unfold sanitizeList
  cases h : trimList l with
  | nil => simp [collapseAux, headOkB]
  | cons a rest =>
    have := headOkB_trimList l
    rw [h] at this
    simp only [headOkB, List.head?_cons] at this
    have hw : ¬ isJsWs a = true := by simpa using this
    rw [collapseAux, if_neg hw]
    simp [headOkB, hw]

/-- The sanitized list has a non-whitespace last character. -/
theorem lastOkB_sanitizeList (l : List Char) : headOkB (sanitizeList l).reverse = true := by
  unfold sanitizeList
  cases h : (trimList l).getLast? with
  | none =>
    rw [List.getLast?_eq_none_iff] at h
    rw [h]
    simp [collapseAux, headOkB]
  | some c =>
    have hrev := headOkB_trimList_reverse l
    rw [headOkB, List.head?_reverse, h] at hrev
    have hc : isJsWs c = false := by simpa using hrev
    have := collapseAux_getLast (trimList l) false c h hc
    rw [headOkB, List.head?_reverse, this]
    simp [hc]

/-- Dropping leading whitespace is the identity on a list whose head is
not whitespace. -/
theorem dropWhile_headOkB (l : List Char) (h : headOkB l = true) :
    l.dropWhile isJsWs = l := by
  cases l with
  | nil => rfl
  | cons a rest =>
    simp only [headOkB, List.head?_cons] at h
    rw [List.dropWhile_cons, if_neg (by simpa using h)]

/-- Trimming is the identity on a list with no edge whitespace. -/
theorem trimList_fix (l : List Char) (h1 : headOkB l = true)
    (h2 : headOkB l.reverse = true) : trimList l = l := by
  unfold trimList
  rw [dropWhile_headOkB l h1, dropWhile_headOkB l.reverse h2, List.reverse_reverse]

/-- The two entry flags of the run-collapsing pass agree on a list
whose head is not whitespace. -/
theorem collapseAux_flag (l : List Char) (h : headOkB l = true) :
    collapseAux true l = collapseAux false l := by
  cases l with
  | nil => rfl
  | cons a rest =>
    simp only [headOkB, List.head?_cons] at h
    have hw : ¬ isJsWs a = true := by simpa using h
    rw [collapseAux, collapseAux, if_neg hw, if_neg hw]

/-- The run-collapsing pass is the identity on a list with no adjacent
whitespace in which every whitespace character is a plain space. -/
theorem collapseAux_fix :
    ∀ (l : List Char), noAdjWs l = true → allWsSpace l = true →
      collapseAux false l = l := by
  intro l
  induction l with
  | nil => intro _ _; rfl
  | cons a rest ih =>
    intro hadj hsp
    have hsp_rest : allWsSpace rest = true := by
      simp only [allWsSpace, List.all_cons, Bool.and_eq_true] at hsp
      exact hsp.2
    have hadj_rest : noAdjWs rest = true := by
      rw [noAdjWs_cons, Bool.and_eq_true] at hadj
      exact hadj.2
    by_cases hw : isJsWs a
    · have ha : a = ' ' := by
        simp only [allWsSpace, List.all_cons, Bool.and_eq_true] at hsp
        have := hsp.1
        rw [hw] at this
        simpa using this
      rw [collapseAux, if_pos hw]
      simp only [if_neg (by simp : ¬ false = true)]
      cases rest with
      | nil => rw [ha]; rfl
      | cons y r =>
        have hy : isJsWs y = false := by
          rw [noAdjWs_cons, Bool.and_eq_true] at hadj
          have := hadj.1
          simp only [List.head?_cons] at this
          rw [hw] at this
          simpa using this
        rw [collapseAux_flag (y :: r) (by simp [headOkB, hy])]
        rw [ih hadj_rest hsp_rest, ha]
    · rw [collapseAux, if_neg hw]
      rw [ih hadj_rest hsp_rest]

/-- Sanitizing is idempotent on character lists. -/
theorem sanitizeList_idem (l : List Char) :
    sanitizeList (sanitizeList l) = sanitizeList l := by
  have h1 := headOkB_sanitizeList l
  have h2 := lastOkB_sanitizeList l
  have h3 : noAdjWs (sanitizeList l) = true := noAdjWs_collapseAux (trimList l) false
  have h4 : allWsSpace (sanitizeList l) = true := allWsSpace_collapseAux (trimList l) false
  show collapseAux false (trimList (sanitizeList l)) = sanitizeList l
  rw [trimList_fix _ h1 h2]
  exact collapseAux_fix _ h3 h4

/-- C4: `sanitizeValue` (the spec's normalize) returns a string with no
leading or trailing whitespace, no whitespace run longer than one
character (no two adjacent whitespace characters, every remaining
whitespace character being a single plain space), and it is idempotent:
sanitizing twice equals sanitizing once. -/
theorem sanitizeValue_normalizes_and_idempotent (s : String) :
    noEdgeWs (sanitizeValue s).toList = true ∧
    noAdjWs (sanitizeValue s).toList = true ∧
    allWsSpace (sanitizeValue s).toList = true ∧
    sanitizeValue (sanitizeValue s) = sanitizeValue s := by
  refine ⟨?_, ?_, ?_, ?_⟩
  · show noEdgeWs (sanitizeList s.toList) = true
    rw [noEdgeWs, Bool.and_eq_true]
    exact ⟨headOkB_sanitizeList _, lastOkB_sanitizeList _⟩
  · exact noAdjWs_collapseAux (trimList s.toList) false
  · exact allWsSpace_collapseAux (trimList s.toList) false
  · show String.mk (sanitizeList (sanitizeList s.toList)) = String.mk (sanitizeList s.toList)
    rw [sanitizeList_idem]

/-- Appending a singleton changes a list. -/
theorem append_singleton_ne {α : Type} (l : List α) (x : α) : ¬ l ++ [x] = l := by
  intro h
  have := congrArg List.length h
  simp at this

/-- Two stores with the same items are equal. -/
theorem Store.eq_of_items (a b : Store) (h : a.items = b.items) : a = b := by
  cases a; cases b; cases h; rfl

/-- C5: the Set Store add contract: `addValue` on a value that
sanitizes to empty returns false without mutating the store; the
returned flag is true exactly when the store changed; and after two
adds of the same value in succession the second returns false and the
size has grown by at most one in total. -/
theorem addValue_set_store_contract (st : Store) (v : String) :
    (sanitizeValue v = "" → addValue st v = (false, st)) ∧
    ((addValue st v).1 = true ↔ ¬ (addValue st v).2 = st) ∧
    (addValue (addValue st v).2 v).1 = false ∧
    (addValue (addValue st v).2 v).2.size ≤ st.size + 1 := by
  by_cases h1 : sanitizeValue v = ""
  · refine ⟨fun _ => by simp [addValue, h1], ?_, ?_, ?_⟩
    · simp [addValue, h1]
    · simp [addValue, h1]
    · simp [addValue, h1]
  · by_cases h2 : sanitizeValue v ∈ st.items
    · refine ⟨fun h => absurd h h1, ?_, ?_, ?_⟩
      · simp [addValue, h1, h2]
      · simp [addValue, h1, h2]
      · simp [addValue, h1, h2]
    · have hfst : addValue st v = (true, Store.mk (st.items ++ [sanitizeValue v])) := by
        simp [addValue, h1, h2]
      refine ⟨fun h => absurd h h1, ?_, ?_, ?_⟩
      · rw [hfst]
        simp only [true_iff]
        intro h
        have := congrArg Store.items h
        exact append_singleton_ne st.items (sanitizeValue v) this
      · rw [hfst]
        have hmem : sanitizeValue v ∈ st.items ++ [sanitizeValue v] := by simp
        simp [addValue, h1, hmem]
      · rw [hfst]
        have hmem : sanitizeValue v ∈ st.items ++ [sanitizeValue v] := by simp
        simp [addValue, h1, hmem, Store.size]

/-- C5 witness: the contract instantiated at the empty store and the
value with internal whitespace. -/
theorem addValue_set_store_contract_witness :
    (sanitizeValue (" a ") = "" → addValue (Store.mk []) (" a ") = (false, Store.mk [])) ∧
    ((addValue (Store.mk []) (" a ")).1 = true ↔
      ¬ (addValue (Store.mk []) (" a ")).2 = Store.mk []) ∧
    (addValue (addValue (Store.mk []) (" a ")).2 (" a ")).1 = false ∧
    (addValue (addValue (Store.mk []) (" a ")).2 (" a ")).2.size ≤
      (Store.mk []).size + 1 :=
  addValue_set_store_contract (Store.mk []) (" a ")

/-- C6: bulk parsing splits on every newline and comma, normalizes each
segment, drops segments that normalize to empty, preserves input order
and duplicates, and on the specification's example input yields the
four expected values. -/
theorem parseBulk_contract :
    parseBulk ("a, b\nc,,  d ") = ["a", "b", "c", "d"] ∧
    parseBulk ("a,a") = ["a", "a"] ∧
    ∀ (raw x : String), x ∈ parseBulk raw → ¬ x = "" := by
  refine ⟨by decide, by decide, ?_⟩
  intro raw x hx
  unfold parseBulk at hx
  have := (List.mem_filter.mp hx).2
  simpa using this

/-- C6 witness: the nonemptiness clause instantiated on a concrete
parse. -/
theorem parseBulk_contract_witness : ¬ ("a" : String) = "" :=
  parseBulk_contract.2.2 ("a,b") ("a") (by decide)

/-- `addValue` only ever appends, and reports true exactly when it
appended something. -/
theorem addValue_extends (st : Store) (v : String) :
    ∃ t, (addValue st v).2.items = st.items ++ t ∧
      ((addValue st v).1 = true ↔ ¬ t = []) := by
  by_cases h1 : sanitizeValue v = ""
  · exact ⟨[], by simp [addValue, h1]⟩
  · by_cases h2 : sanitizeValue v ∈ st.items
    · exact ⟨[], by simp [addValue, h1, h2]⟩
    · exact ⟨[sanitizeValue v], by simp [addValue, h1, h2]⟩

/-- The ingest loop only ever appends, and reports true exactly when it
appended something. -/
theorem addItemsLoop_extends :
    ∀ (l : List JsValue) (st : Store),
      ∃ t, (addItemsLoop l st).2.items = st.items ++ t ∧
        ((addItemsLoop l st).1 = true ↔ ¬ t = []) := by
  intro l
  induction l with
  | nil => intro st; exact ⟨[], by simp [addItemsLoop]⟩
  | cons v rest ih =>
    intro st
    cases v with
    | str s =>
      obtain ⟨t1, h1, e1⟩ := addValue_extends st s
      obtain ⟨t2, h2, e2⟩ := ih (addValue st s).2
      refine ⟨t1 ++ t2, ?_, ?_⟩
      · show (addItemsLoop rest (addValue st s).2).2.items = st.items ++ (t1 ++ t2)
        rw [h2, h1, List.append_assoc]
      · show ((addValue st s).1 || (addItemsLoop rest (addValue st s).2).1) = true ↔
          ¬ t1 ++ t2 = []
        rw [Bool.or_eq_true, e1, e2]
        constructor
        · intro h hc
          rcases List.append_eq_nil.mp hc with ⟨hc1, hc2⟩
          rcases h with h | h
          · exact h hc1
          · exact h hc2
        · intro h
          by_cases hc1 : t1 = []
          · right
            intro hc2
            exact h (by rw [hc1, hc2]; rfl)
          · left; exact hc1
    | num n => exact ih st
    | nullV => exact ih st
    | boolV b => exact ih st
    | arr es => exact ih st

/-- The ingest loop ignores non-string elements. -/
theorem addItemsLoop_skips_nonstrings :
    ∀ (l : List JsValue) (st : Store),
      addItemsLoop l st = addItemsLoop (l.filter isStr) st := by
  intro l
  induction l with
  | nil => intro st; rfl
  | cons v rest ih =>
    intro st
    cases v with
    | str s =>
      show ((addValue st s).1 || (addItemsLoop rest (addValue st s).2).1,
        (addItemsLoop rest (addValue st s).2).2) = _
      rw [List.filter_cons]
      simp only [isStr, if_pos rfl]
      show _ = ((addValue st s).1 || (addItemsLoop (rest.filter isStr) (addValue st s).2).1,
        (addItemsLoop (rest.filter isStr) (addValue st s).2).2)
      rw [← ih]
    | num n => rw [List.filter_cons]; simp only [isStr, Bool.false_eq_true, if_false]; exact ih st
    | nullV => rw [List.filter_cons]; simp only [isStr, Bool.false_eq_true, if_false]; exact ih st
    | boolV b => rw [List.filter_cons]; simp only [isStr, Bool.false_eq_true, if_false]; exact ih st
    | arr es => rw [List.filter_cons]; simp only [isStr, Bool.false_eq_true, if_false]; exact ih st

/-- C7: the Suggestion Ingestor contract: a non-array argument returns
false with no mutation; non-string elements are silently discarded;
the returned flag is true exactly when the store changed (equivalently,
when at least one add returned true); and ingesting the
specification's example list into an empty store yields exactly the
two entries x and y. -/
theorem addItemsFromArray_ingest_contract :
    (∀ (v : JsValue) (st : Store), isArr v = false → addItemsFromArray v st = (false, st)) ∧
    (∀ (l : List JsValue) (st : Store),
        addItemsFromArray (JsValue.arr l) st =
          addItemsFromArray (JsValue.arr (l.filter isStr)) st) ∧
    (∀ (l : List JsValue) (st : Store),
        ((addItemsFromArray (JsValue.arr l) st).1 = true ↔
          ¬ (addItemsFromArray (JsValue.arr l) st).2 = st)) ∧
    addItemsFromArray (JsValue.arr [JsValue.str ("x"), JsValue.str ("x"),
        JsValue.str (" x "), JsValue.str ("y"), JsValue.num 42, JsValue.nullV])
      (Store.mk []) = (true, Store.mk ["x", "y"]) := by
  refine ⟨?_, ?_, ?_, by decide⟩
  · intro v st h
    cases v with
    | arr es => simp [isArr] at h
    | str s => rfl
    | num n => rfl
    | nullV => rfl
    | boolV b => rfl
  · intro l st
    show addItemsLoop l st = addItemsLoop (l.filter isStr) st
    exact addItemsLoop_skips_nonstrings l st
  · intro l st
    obtain ⟨t, ht, he⟩ := addItemsLoop_extends l st
    show ((addItemsLoop l st).1 = true ↔ ¬ (addItemsLoop l st).2 = st)
    rw [he]
    constructor
    · intro h hc
      apply h
      have : st.items ++ t = st.items ++ [] := by
        rw [List.append_nil, ← ht, hc]
      exact List.append_cancel_left this
    · intro h hc
      apply h
      apply Store.eq_of_items
      rw [ht, hc, List.append_nil]

/-- C7 witness: a non-array argument is rejected without mutation. -/
theorem addItemsFromArray_ingest_contract_witness :
    addItemsFromArray (JsValue.num 7) (Store.mk []) = (false, Store.mk []) :=
  addItemsFromArray_ingest_contract.1 (JsValue.num 7) (Store.mk []) (by decide)

/-- The length comparison is transitive. -/
theorem lenLe_trans (a b c : String) (hab : lenLe a b = true) (hbc : lenLe b c = true) :
    lenLe a c = true := by
  simp only [lenLe, decide_eq_true_eq] at hab hbc ⊢
  omega

/-- The length comparison is total. -/
theorem lenLe_total (a b : String) : (lenLe a b || lenLe b a) = true := by
  simp only [lenLe, Bool.or_eq_true, decide_eq_true_eq]
  omega

/-- C8: the Renderer contract: an empty store renders an empty chip
list, shows the empty-state indicator and an empty literal; a non-empty
store hides the indicator, renders the literal of the unsorted
enumeration order, and renders as chips a permutation of the values
that is sorted by the collator comparison; the literal is
brace-delimited, comma-and-space-separated, double-quoted with no
internal escaping of quote characters. -/
theorem render_contract (le : String → String → Bool)
    (htrans : ∀ (a b c : String), le a b = true → le b c = true → le a c = true)
    (htotal : ∀ (a b : String), (le a b || le b a) = true) (st : Store) :
    (st.items = [] → render le st = RenderOut.mk [] false "") ∧
    (¬ st.items = [] →
      (render le st).emptyStateHidden = true ∧
      (render le st).outputText = setLiteral st.items ∧
      (render le st).chips.Perm st.items ∧
      (render le st).chips.Pairwise (fun a b => le a b = true)) ∧
    setLiteral ["a\"b"] = "\x7b \"a\"b\" \x7d" ∧
    setLiteral ["b", "a"] = "\x7b \"b\", \"a\" \x7d" := by
  refine ⟨?_, ?_, by decide, by decide⟩
  · intro h
    simp [render, Store.size, h]
  · intro h
    have hsz : ¬ st.size = 0 := by
      simp [Store.size, List.length_eq_zero]
      exact h
    refine ⟨?_, ?_, ?_, ?_⟩
    · simp [render, if_neg hsz]
    · simp [render, if_neg hsz]
    · simp only [render, if_neg hsz]
      exact List.mergeSort_perm st.items le
    · simp only [render, if_neg hsz]
      exact List.sorted_mergeSort htrans htotal st.items

/-- C8 witness: the non-empty branch of the contract at a concrete
store and the length comparison. -/
theorem render_contract_witness :
    (render lenLe (Store.mk ["bb", "a"])).emptyStateHidden = true ∧
    (render lenLe (Store.mk ["bb", "a"])).outputText = setLiteral ["bb", "a"] ∧
    (render lenLe (Store.mk ["bb", "a"])).chips.Perm ["bb", "a"] ∧
    (render lenLe (Store.mk ["bb", "a"])).chips.Pairwise (fun a b => lenLe a b = true) :=
  (render_contract lenLe lenLe_trans lenLe_total (Store.mk ["bb", "a"])).2.1 (by decide)

/-- Announcing never changes the status element. -/
theorem announceSt_status (s : UiState) (m : String) :
    (announceSt s m).status = s.status := by
  unfold announceSt
  split <;> rfl

/-- A nonempty status message is shown with its severity. -/
theorem updateAiStatus_status (s : UiState) (m st : String) (h : ¬ m = "") :
    (updateAiStatus s m st).status = some (m, st) := by
  unfold updateAiStatus
  rw [if_neg h]

/-- Appending to a nonempty string yields a nonempty string. -/
theorem append_ne_empty (p q : String) (h : ¬ p = "") : ¬ p ++ q = "" := by
  intro hc
  apply h
  cases p with
  | mk a =>
    cases q with
    | mk b =>
      have hdata : a ++ b = ([] : List Char) := congrArg String.data hc
      have ha : a = [] := (List.append_eq_nil.mp hdata).1
      rw [ha]

/-- The success status message is never empty. -/
theorem addedStatusMsg_ne_empty (n : Nat) : ¬ addedStatusMsg n = "" := by
  unfold addedStatusMsg
  exact append_ne_empty _ _
    (append_ne_empty _ _ (append_ne_empty _ _ (append_ne_empty _ _ (by decide))))

/-- C10: submitting a prompt that is empty after normalization is
rejected immediately: the only effect is the announcement asking the
user to describe what they need; the store, the request handle, the
dispatched requests, the control flags and the status are all
unchanged. -/
theorem emptyPromptSubmitRejected (s : UiState) (fieldValue : String)
    (h : sanitizeValue fieldValue = "") :
    submitStep s fieldValue =
      { s with announcements :=
          s.announcements ++ ["Describe what you need before asking the assistant."] } := by
  unfold submitStep
  rw [if_pos h]
  unfold announceSt
  rw [if_neg (by decide)]

/-- C10 witness: a whitespace-only prompt on the initial state. -/
theorem emptyPromptSubmitRejected_witness :
    submitStep initState ("   ") =
      { initState with announcements :=
          initState.announcements ++
            ["Describe what you need before asking the assistant."] } :=
  emptyPromptSubmitRejected initState ("   ") (by decide)

/-- C9: failure classification of a settled suggestion request: a
non-2xx response whose parsed body carried a truthy error message shows
exactly that message with error severity; without such a body the
generic text naming the HTTP status is shown with error severity; a
fetch TypeError matching the case-insensitive Failed to fetch test
shows the distinct backend-unreachable message with error severity; and
a request whose controller was aborted is never rendered as a failure:
whatever the network outcome, it shows the cancelled message with info
severity. -/
theorem suggestionFailureClassification (s : UiState) (id : Nat) (h : id ∈ s.pending) :
    (∀ (stat : Nat) (e : String), ¬ id ∈ s.abortedIds → ¬ e = "" →
      (settleStep s id (FetchOutcome.httpError stat (some e))).status = some (e, "error")) ∧
    (∀ (stat : Nat), ¬ id ∈ s.abortedIds →
      (settleStep s id (FetchOutcome.httpError stat none)).status =
        some ("Request failed with status " ++ toString stat, "error")) ∧
    (∀ (msg : String), ¬ id ∈ s.abortedIds → failedToFetchTest msg = true →
      (settleStep s id (FetchOutcome.fetchTypeError msg)).status =
        some ("Could not reach the backend. Make sure the server is running and try again.",
          "error")) ∧
    (∀ (outcome : FetchOutcome), id ∈ s.abortedIds →
      (settleStep s id outcome).status = some ("Assistant request cancelled.", "info")) := by
  refine ⟨?_, ?_, ?_, ?_⟩
  · intro stat e hna hne
    unfold settleStep
    rw [if_pos h, if_neg hna]
    show (settleBodyResolved { s with pending := s.pending.erase id }
      (FetchOutcome.httpError stat (some e))).status = some (e, "error")
    simp only [settleBodyResolved]
    rw [if_neg hne, announceSt_status, updateAiStatus_status _ _ _ hne]
  · intro stat hna
    unfold settleStep
    rw [if_pos h, if_neg hna]
    show (settleBodyResolved { s with pending := s.pending.erase id }
      (FetchOutcome.httpError stat none)).status =
        some ("Request failed with status " ++ toString stat, "error")
    simp only [settleBodyResolved]
    rw [announceSt_status,
      updateAiStatus_status _ _ _ (append_ne_empty _ _ (by decide))]
  · intro msg hna hft
    unfold settleStep
    rw [if_pos h, if_neg hna]
    show (settleBodyResolved { s with pending := s.pending.erase id }
      (FetchOutcome.fetchTypeError msg)).status =
        some ("Could not reach the backend. Make sure the server is running and try again.",
          "error")
    simp only [settleBodyResolved]
    rw [if_pos hft, announceSt_status, updateAiStatus_status _ _ _ (by decide)]
  · intro outcome hmem
    unfold settleStep
    rw [if_pos h, if_pos hmem]
    show (announceSt
      (updateAiStatus { s with pending := s.pending.erase id }
        ("Assistant request cancelled.") ("info"))
      ("Assistant request cancelled.")).status = some ("Assistant request cancelled.", "info")
    rw [announceSt_status, updateAiStatus_status _ _ _ (by decide)]

/-- C9 witness: the four classifications on concrete settled
requests. -/
theorem suggestionFailureClassification_witness :
    (settleStep (run initState [Event.aiSubmit ("p")]) 0
        (FetchOutcome.httpError 500 (some ("boom")))).status = some ("boom", "error") ∧
    (settleStep (run initState [Event.aiSubmit ("p")]) 0
        (FetchOutcome.httpError 500 none)).status =
      some ("Request failed with status " ++ toString 500, "error") ∧
    (settleStep (run initState [Event.aiSubmit ("p")]) 0
        (FetchOutcome.fetchTypeError ("Failed to fetch"))).status =
      some ("Could not reach the backend. Make sure the server is running and try again.",
        "error") ∧
    (settleStep (run initState [Event.aiSubmit ("p"), Event.aiCancelClick]) 0
        (FetchOutcome.httpError 500 none)).status =
      some ("Assistant request cancelled.", "info") := by
  refine ⟨?_, ?_, ?_, ?_⟩
  · exact (suggestionFailureClassification (run initState [Event.aiSubmit ("p")]) 0
      (by decide)).1 500 ("boom") (by decide) (by decide)
  · exact (suggestionFailureClassification (run initState [Event.aiSubmit ("p")]) 0
      (by decide)).2.1 500 (by decide)
  · exact (suggestionFailureClassification (run initState [Event.aiSubmit ("p")]) 0
      (by decide)).2.2.1 ("Failed to fetch") (by decide) (by decide)
  · exact (suggestionFailureClassification
      (run initState [Event.aiSubmit ("p"), Event.aiCancelClick]) 0
      (by decide)).2.2.2 (FetchOutcome.httpError 500 none) (by decide)

/-- C2: the completion handler of a settled suggestion request
unconditionally re-enables the prompt input and the submit control,
hides the cancel control, and clears the shared in-flight handle,
whether or not that request is still the current one; consequently,
after a superseded request settles while its successor is still in
flight, the shared handle is null and a cancel click is a no-op, so the
still-pending successor can no longer be aborted. -/
theorem settleUnconditionallyResetsUi (s : UiState) (id : Nat) (outcome : FetchOutcome)
    (h : id ∈ s.pending) :
    ((settleStep s id outcome).promptDisabled = false ∧
     (settleStep s id outcome).submitDisabled = false ∧
     (settleStep s id outcome).cancelHidden = true ∧
     (settleStep s id outcome).controller = none) ∧
    (cancelClickStep (run initState [Event.aiSubmit ("a"), Event.aiSubmit ("b"),
        Event.settle 0 (FetchOutcome.ok none)]) =
      run initState [Event.aiSubmit ("a"), Event.aiSubmit ("b"),
        Event.settle 0 (FetchOutcome.ok none)]) ∧
    1 ∈ (run initState [Event.aiSubmit ("a"), Event.aiSubmit ("b"),
        Event.settle 0 (FetchOutcome.ok none)]).pending ∧
    (run initState [Event.aiSubmit ("a"), Event.aiSubmit ("b"),
        Event.settle 0 (FetchOutcome.ok none)]).controller = none := by
  refine ⟨?_, by decide, by decide, by decide⟩
  unfold settleStep
  rw [if_pos h]
  refine ⟨rfl, rfl, rfl, rfl⟩

/-- C2 witness: the reset clauses at a concrete settled request. -/
theorem settleUnconditionallyResetsUi_witness :
    ((settleStep (run initState [Event.aiSubmit ("a")]) 0
        (FetchOutcome.ok none)).promptDisabled = false ∧
     (settleStep (run initState [Event.aiSubmit ("a")]) 0
        (FetchOutcome.ok none)).submitDisabled = false ∧
     (settleStep (run initState [Event.aiSubmit ("a")]) 0
        (FetchOutcome.ok none)).cancelHidden = true ∧
     (settleStep (run initState [Event.aiSubmit ("a")]) 0
        (FetchOutcome.ok none)).controller = none) ∧
    (cancelClickStep (run initState [Event.aiSubmit ("a"), Event.aiSubmit ("b"),
        Event.settle 0 (FetchOutcome.ok none)]) =
      run initState [Event.aiSubmit ("a"), Event.aiSubmit ("b"),
        Event.settle 0 (FetchOutcome.ok none)]) ∧
    1 ∈ (run initState [Event.aiSubmit ("a"), Event.aiSubmit ("b"),
        Event.settle 0 (FetchOutcome.ok none)]).pending ∧
    (run initState [Event.aiSubmit ("a"), Event.aiSubmit ("b"),
        Event.settle 0 (FetchOutcome.ok none)]).controller = none :=
  settleUnconditionallyResetsUi (run initState [Event.aiSubmit ("a")]) 0
    (FetchOutcome.ok none) (by decide)

/-- C1 counterexample: a second suggestion submit supersedes a pending
first one, and the superseded request is not discarded silently: when
it settles, its handler publishes the cancelled status and an
announcement while the second request is still in flight — a
user-visible notification produced by the superseded request. -/
theorem supersededRequestIsReported :
    (run initState [Event.aiSubmit ("first"), Event.aiSubmit ("second"),
        Event.settle 0 (FetchOutcome.ok none)]).status =
      some ("Assistant request cancelled.", "info") ∧
    (run initState [Event.aiSubmit ("first"), Event.aiSubmit ("second"),
        Event.settle 0 (FetchOutcome.ok none)]).announcements =
      ["Assistant request cancelled."] ∧
    1 ∈ (run initState [Event.aiSubmit ("first"), Event.aiSubmit ("second"),
        Event.settle 0 (FetchOutcome.ok none)]).pending := by
  decide

/-- C1 amended: submitting while a request is pending does abort the
prior request before dispatching the new one, and the new request's
outcome is eventually reported; but the superseded request is not
silent: its settlement publishes the info-severity cancelled status and
announcement (overwriting the successor's in-progress status) before
the successor's own outcome is reported. -/
theorem supersedeLifecycle :
    (run initState [Event.aiSubmit ("first"), Event.aiSubmit ("second")]).abortedIds = [0] ∧
    (run initState [Event.aiSubmit ("first"), Event.aiSubmit ("second")]).controller =
      some 1 ∧
    (run initState [Event.aiSubmit ("first"), Event.aiSubmit ("second")]).status =
      some ("Contacting the assistant…", "info") ∧
    (run initState [Event.aiSubmit ("first"), Event.aiSubmit ("second"),
        Event.settle 0 (FetchOutcome.ok none)]).status =
      some ("Assistant request cancelled.", "info") ∧
    (run initState [Event.aiSubmit ("first"), Event.aiSubmit ("second"),
        Event.settle 0 (FetchOutcome.ok none),
        Event.settle 1 (FetchOutcome.ok (some (JsValue.arr [JsValue.str ("x")])))]).status =
      some ("Added 1 item from the assistant.", "success") ∧
    (run initState [Event.aiSubmit ("first"), Event.aiSubmit ("second"),
        Event.settle 0 (FetchOutcome.ok none),
        Event.settle 1 (FetchOutcome.ok (some (JsValue.arr [JsValue.str ("x")])))]).store =
      Store.mk ["x"] := by
  decide

/-- C3 counterexample: two candidate strings that differ only in
internal whitespace survive trimming and deduplication as two unique
items, but collapse to the same stored value, so the store grows by one
while the status reports two items added: the reported count is not the
number of values actually added. -/
theorem addedCountOvercounts :
    (run initState [Event.aiSubmit ("p"),
        Event.settle 0 (FetchOutcome.ok (some (JsValue.arr
          [JsValue.str ("a  b"), JsValue.str ("a b")])))]).status =
      some ("Added 2 items from the assistant.", "success") ∧
    (run initState [Event.aiSubmit ("p"),
        Event.settle 0 (FetchOutcome.ok (some (JsValue.arr
          [JsValue.str ("a  b"), JsValue.str ("a b")])))]).store =
      Store.mk ["a b"] ∧
    initState.store = Store.mk [] := by
  decide

/-- C3 amended: on a successful response the payload is filtered to
strings, trimmed, emptied-dropped and deduplicated; when at least one
add succeeds, the success status reports N equal to the number of
deduplicated trimmed candidates (which can exceed the number of values
actually added); in the specification's scenario, two copies of N95
respirator against an empty store add exactly one entry and report
exactly one item. -/
theorem addedCountReportsUniqueTrimmedCandidates :
    ((run initState [Event.aiSubmit ("ppe"),
        Event.settle 0 (FetchOutcome.ok (some (JsValue.arr
          [JsValue.str ("N95 respirator"), JsValue.str ("N95 respirator")])))]).store =
      Store.mk ["N95 respirator"] ∧
     (run initState [Event.aiSubmit ("ppe"),
        Event.settle 0 (FetchOutcome.ok (some (JsValue.arr
          [JsValue.str ("N95 respirator"), JsValue.str ("N95 respirator")])))]).status =
      some ("Added 1 item from the assistant.", "success")) ∧
    ∀ (s : UiState) (l : List JsValue),
      ¬ extractItems (some (JsValue.arr l)) = [] →
      (addItemsFromArray (JsValue.arr
          ((extractItems (some (JsValue.arr l))).eraseDups.map JsValue.str)) s.store).1 =
        true →
      (settleBodyResolved s (FetchOutcome.ok (some (JsValue.arr l)))).status =
        some (addedStatusMsg (extractItems (some (JsValue.arr l))).eraseDups.length,
          "success") := by
  refine ⟨by decide, ?_⟩
  intro s l hne hadd
  simp only [settleBodyResolved]
  rw [if_neg hne, if_pos hadd, announceSt_status,
    updateAiStatus_status _ _ _ (addedStatusMsg_ne_empty _)]

/-- C3 amended witness: the reported count at a concrete payload. -/
theorem addedCountReportsUniqueTrimmedCandidates_witness :
    (settleBodyResolved initState
        (FetchOutcome.ok (some (JsValue.arr [JsValue.str ("k")])))).status =
      some (addedStatusMsg
        (extractItems (some (JsValue.arr [JsValue.str ("k")]))).eraseDups.length,
        "success") :=
  addedCountReportsUniqueTrimmedCandidates.2 initState [JsValue.str ("k")]
    (by decide) (by decide)
